import Mathlib

/-!
# Shopping-cart front end (`src/index.js`)

A shallow embedding of the four modules of `src/index.js` (`API`, `Model`, `View`,
`Controller`) and the properties of the cart, the pagination and the state setters.

Conventions of the embedding.

* JavaScript numbers that the program handles (quantities, page numbers) are read as
  mathematical integers; `NaN`, which `parseInt` yields on text that is not a number, is
  `none` of `JsNum`.  The text of a quantity input is kept as `parseInt` reads it.
* Item ids are natural numbers; the attribute `data-id` of a rendered button carries the id
  of the item it was rendered from, and `item.id == id` is equality of ids.
* The backend is the cart resource as a list of entries, with the three store operations of
  the section on the resource store, and a record of the requests it has received.
* A promise chain of a cart handler (`request.then(() => getCart()).then(data => ...)`) is
  one sequential step over the backend cart.  The reply to `getInventory` is an event of its
  own, carrying whatever the backend reports.
* An exception thrown in a listener or in a promise callback ends that listener or chain;
  what had been stored before stays stored.
* A private field `#x` of `State` is the field `x` of the structure `State`.
-/

namespace Shop

/-! ## Data -/

/-- A number produced by `parseInt`: an integer, or `none` for `NaN`. -/
abbrev JsNum := Option Int

/-- The test `x > 0` on a number that may be `NaN` (`NaN > 0` is false). -/
def JsNum.isPos : JsNum → Bool
  | some v => decide (0 < v)
  | none => false

/-- An item of the inventory resource: its id, its `content`, and any further properties. -/
structure InventoryItem where
  id : Nat
  content : String
  extra : List (String × String)
deriving DecidableEq

/-- An entry of the cart resource: the properties of an inventory item and a `quantity`. -/
structure CartItem extends InventoryItem where
  quantity : Int
deriving DecidableEq

/-- The HTTP requests the module `API` can issue. -/
inductive Request where
  | getCart
  | getInventory (page : Int)
  | addToCart (body : CartItem)
  | updateCart (id : Nat) (newAmount : Int)
  | deleteFromCart (id : Nat)
deriving DecidableEq

/-- The backend as the front end sees it: the cart resource and the requests received. -/
structure Server where
  cart : List CartItem
  log : List Request
deriving DecidableEq

/-! ## The resource store -/

/-- Modelled from the spec: the REST store behind the URL (not among the sources);
`POST /cart` appends the posted entry to the cart. -/
def Store.post (body : CartItem) (cart : List CartItem) : List CartItem :=
  cart ++ [body]

/-- Modelled from the spec: the REST store behind the URL (not among the sources);
`PATCH /cart/id` sets the quantity of the entry with that id and keeps the rest of it. -/
def Store.patch (id : Nat) (newAmount : Int) : List CartItem → List CartItem
  | [] => []
  | x :: xs =>
    if x.id = id then { x with quantity := newAmount } :: xs
    else x :: Store.patch id newAmount xs

/-- Modelled from the spec: the REST store behind the URL (not among the sources);
`DELETE /cart/id` removes the entry with that id. -/
def Store.delete (id : Nat) : List CartItem → List CartItem
  | [] => []
  | x :: xs => if x.id = id then xs else x :: Store.delete id xs

/-! ## Module `API` -/

/-- The constant `ITEMS_PER_PAGE`. -/
def API.ITEMS_PER_PAGE : Nat := 2

/-- The call `getCart()`: a GET of `/cart`, answered with the cart. -/
def API.getCart (sv : Server) : List CartItem × Server :=
  (sv.cart, { sv with log := sv.log ++ [Request.getCart] })

/-- The call `getInventory(page)`: the request is issued here, its reply comes as an event. -/
def API.getInventory (page : Int) (sv : Server) : Server :=
  { sv with log := sv.log ++ [Request.getInventory page] }

/-- The call `addToCart(inventoryItem)`: a POST of the entry to `/cart`. -/
def API.addToCart (inventoryItem : CartItem) (sv : Server) : Server :=
  { cart := Store.post inventoryItem sv.cart, log := sv.log ++ [Request.addToCart inventoryItem] }

/-- The call `updateCart(id, newAmount)`: a PATCH of the quantity to `/cart/id`. -/
def API.updateCart (id : Nat) (newAmount : Int) (sv : Server) : Server :=
  { cart := Store.patch id newAmount sv.cart, log := sv.log ++ [Request.updateCart id newAmount] }

/-- The call `deleteFromCart(id)`: a DELETE of `/cart/id`. -/
def API.deleteFromCart (id : Nat) (sv : Server) : Server :=
  { cart := Store.delete id sv.cart, log := sv.log ++ [Request.deleteFromCart id] }

/-- The call `checkout()`: `getCart()`, then `deleteFromCart(item.id)` for every entry of the
reply, in the order of the reply. -/
def API.checkout (sv : Server) : Server :=
  let reply := API.getCart sv
  reply.1.foldl (fun acc item => API.deleteFromCart item.id acc) reply.2

/-! ## Module `Model`: the class `State` -/

/-- The four data fields of a `State`. -/
structure Fields where
  inventory : List InventoryItem
  cart : List CartItem
  currentPage : Int
  totalPages : Int
deriving DecidableEq

/-- A `State` object: the data fields and the subscribed callback, if any.  A callback is run
against its surroundings `ω` (the page, for the controller) and reads the state through the
getters, that is, it sees the fields as they are when it is called. -/
structure State (ω : Type) extends Fields where
  onChange : Option (Fields → ω → ω)

/-- How a call ends: normally, or by a thrown exception; both carry what the call left behind. -/
inductive Outcome (α : Type) where
  | ok (a : α)
  | throws (a : α)

/-- What a call left behind, however it ended. -/
def Outcome.val {α : Type} : Outcome α → α
  | Outcome.ok a => a
  | Outcome.throws a => a

/-- Whether a call ended by an exception. -/
def Outcome.threw {α : Type} : Outcome α → Bool
  | Outcome.ok _ => false
  | Outcome.throws _ => true

/-- The constructor of `State`: empty lists, page 1 of 1, no callback. -/
def State.constructor {ω : Type} : State ω :=
  { inventory := [], cart := [], currentPage := 1, totalPages := 1, onChange := none }

/-- The statement `this.#onChange()`: a `TypeError` when nothing is subscribed, else one call. -/
def State.callOnChange {ω : Type} (s : State ω) (w : ω) : Outcome (State ω × ω) :=
  match s.onChange with
  | none => Outcome.throws (s, w)
  | some cb => Outcome.ok (s, cb s.toFields w)

/-- The setter `set cart(newCart)`. -/
def State.setCart {ω : Type} (s : State ω) (newCart : List CartItem) (w : ω) :
    Outcome (State ω × ω) :=
  State.callOnChange { s with cart := newCart } w

/-- The reply of `getInventory`: the items of the page and the total the backend reports. -/
structure InventoryReply where
  items : List InventoryItem
  total : Nat
deriving DecidableEq

/-- The expression `Math.ceil(total / ITEMS_PER_PAGE)`. -/
def State.pagesFor (total : Nat) : Int :=
  Int.ceil ((total : ℚ) / (API.ITEMS_PER_PAGE : ℚ))

/-- The setter `set inventory(newInventory)`. -/
def State.setInventory {ω : Type} (s : State ω) (newInventory : InventoryReply) (w : ω) :
    Outcome (State ω × ω) :=
  State.callOnChange
    { s with inventory := newInventory.items, totalPages := State.pagesFor newInventory.total } w

/-- The setter `set currentPage(newPage)`. -/
def State.setCurrentPage {ω : Type} (s : State ω) (newPage : Int) (w : ω) :
    Outcome (State ω × ω) :=
  State.callOnChange { s with currentPage := newPage } w

/-- The method `subscribe(cb)`. -/
def State.subscribe {ω : Type} (s : State ω) (cb : Fields → ω → ω) : State ω :=
  { s with onChange := some cb }

/-! ## Module `View` -/

/-- One `li` of the inventory list: the text of its `span`, the `data-id` shared by its
buttons and its quantity input, and the content of the input as `parseInt` reads it. -/
structure InventoryRow where
  content : String
  dataId : Nat
  value : JsNum
deriving DecidableEq

/-- One `li` of the cart list: `content x quantity` and the `data-id` of its delete button. -/
structure CartRow where
  content : String
  quantity : Int
  dataId : Nat
deriving DecidableEq

/-- The part of the page the program reads and writes. -/
structure Dom where
  inventoryList : List InventoryRow
  cartList : List CartRow
  prevDisabled : Bool
  nextDisabled : Bool
  pageInfo : Int × Int
deriving DecidableEq

/-- The function `renderInventory`: the list is emptied and one row is appended for every
item, its quantity input holding `0`. -/
def View.renderInventory (inventory : List InventoryItem) (d : Dom) : Dom :=
  { d with inventoryList :=
      inventory.map (fun item => { content := item.content, dataId := item.id, value := some 0 }) }

/-- The function `renderCart`. -/
def View.renderCart (cart : List CartItem) (d : Dom) : Dom :=
  { d with cartList :=
      cart.map (fun item => { content := item.content, quantity := item.quantity, dataId := item.id }) }

/-- The function `renderPagination`. -/
def View.renderPagination (currentPage totalPages : Int) (d : Dom) : Dom :=
  { d with
    prevDisabled := decide (currentPage = 1)
    nextDisabled := decide (currentPage = totalPages)
    pageInfo := (currentPage, totalPages) }

/-! ## Module `Controller` -/

/-- The callback that `bootstrap` subscribes. -/
def Controller.render (state : Fields) (d : Dom) : Dom :=
  View.renderPagination state.currentPage state.totalPages
    (View.renderCart state.cart (View.renderInventory state.inventory d))

/-- The controller and what it acts on: the backend, its `state`, the page. -/
structure World where
  server : Server
  state : State Dom
  dom : Dom

/-- The target of a click: its classes and its `data-id`. -/
structure Target where
  classList : List String
  dataId : Nat
deriving DecidableEq

/-- The selector `.quantity-input[data-id=id]`: the first quantity input with that `data-id`. -/
def Controller.querySelector (d : Dom) (id : Nat) : Option InventoryRow :=
  d.inventoryList.find? (fun row => row.dataId == id)

/-- The assignment `quantityInput.value = v` on the input that the selector found. -/
def Controller.setValue (id : Nat) (v : JsNum) : List InventoryRow → List InventoryRow
  | [] => []
  | row :: rows =>
    if row.dataId == id then { row with value := v } :: rows
    else row :: Controller.setValue id v rows

/-- The second `if` of the listener of `handleUpdateAmount`: a click on a minus button. -/
def Controller.handleUpdateAmountMinus (d : Dom) (target : Target) : Dom :=
  if target.classList.contains "minus-btn" then
    match Controller.querySelector d target.dataId with
    | none => d
    | some quantityInput =>
      if JsNum.isPos quantityInput.value then
        let newValue : JsNum := quantityInput.value.map (fun v => v - 1)
        { d with inventoryList := Controller.setValue target.dataId newValue d.inventoryList }
      else d
  else d

/-- The listener that `handleUpdateAmount` puts on the inventory list.  Where the selector
finds no input, reading `value` of `null` throws and the listener ends there. -/
def Controller.handleUpdateAmount (d : Dom) (target : Target) : Dom :=
  if target.classList.contains "plus-btn" then
    match Controller.querySelector d target.dataId with
    | none => d
    | some quantityInput =>
      let newValue : JsNum := quantityInput.value.map (fun v => v + 1)
      Controller.handleUpdateAmountMinus
        { d with inventoryList := Controller.setValue target.dataId newValue d.inventoryList }
        target
  else Controller.handleUpdateAmountMinus d target

/-- The tail `.then(() => model.getCart()).then(data => state.cart = data)` of the cart
handlers, run on the backend `sv` that the first request left. -/
def Controller.thenGetCart (sv : Server) (w : World) : World :=
  let reply := API.getCart sv
  let out := (w.state.setCart reply.1 w.dom).val
  { server := reply.2, state := out.1, dom := out.2 }

/-- The listener that `handleAddToCart` puts on the inventory list.  Where the selector finds
no input the listener ends by a `TypeError`.  The result is `none` in one case only: no item of
`state.inventory` has the id, so that the posted object would be `{quantity}` without an id,
which the cart entries of this development cannot express. -/
def Controller.handleAddToCart (w : World) (target : Target) : Option World :=
  if target.classList.contains "add-to-cart-btn" then
    let id := target.dataId
    match Controller.querySelector w.dom id with
    | none => some w
    | some quantityInput =>
      match quantityInput.value with
      | none => some w
      | some quantity =>
        if 0 < quantity then
          match w.state.cart.find? (fun item => item.id == id) with
          | some cartItem =>
            some (Controller.thenGetCart
              (API.updateCart id (cartItem.quantity + quantity) w.server) w)
          | none =>
            match w.state.inventory.find? (fun item => item.id == id) with
            | some inventoryItem =>
              some (Controller.thenGetCart
                (API.addToCart { inventoryItem with quantity := quantity } w.server) w)
            | none => none
        else some w
  else some w

/-- The listener that `handleDelete` puts on the cart list. -/
def Controller.handleDelete (w : World) (target : Target) : World :=
  if target.classList.contains "delete-btn" then
    Controller.thenGetCart (API.deleteFromCart target.dataId w.server) w
  else w

/-- The listener that `handleCheckout` puts on the checkout button. -/
def Controller.handleCheckout (w : World) : World :=
  Controller.thenGetCart (API.checkout w.server) w

/-- The statements `state.currentPage = newPage; model.getInventory(state.currentPage)` of the
two pagination listeners: the request is issued unless the setter threw. -/
def Controller.turnPage (w : World) (newPage : Int) : World :=
  match w.state.setCurrentPage newPage w.dom with
  | Outcome.throws out => { w with state := out.1, dom := out.2 }
  | Outcome.ok out =>
    { server := API.getInventory out.1.currentPage w.server, state := out.1, dom := out.2 }

/-- The listener that `handlePagination` puts on the previous button. -/
def Controller.handlePaginationPrev (w : World) : World :=
  if 1 < w.state.currentPage then Controller.turnPage w (w.state.currentPage - 1) else w

/-- The listener that `handlePagination` puts on the next button. -/
def Controller.handlePaginationNext (w : World) : World :=
  if w.state.currentPage < w.state.totalPages then
    Controller.turnPage w (w.state.currentPage + 1)
  else w

/-- The callback `data => { state.inventory = data }` of a `getInventory` reply. -/
def Controller.onInventory (w : World) (data : InventoryReply) : World :=
  let out := (w.state.setInventory data w.dom).val
  { w with state := out.1, dom := out.2 }

/-- The callback `data => { state.cart = data }` of the `getCart` that `bootstrap` issues,
run with the cart as the backend holds it then. -/
def Controller.onCart (w : World) : World :=
  let out := (w.state.setCart w.server.cart w.dom).val
  { w with state := out.1, dom := out.2 }

/-- The function `bootstrap` up to its two requests: the render callback is subscribed, the
first page and the cart are requested, the five listeners are in place.  The page `d` the
script runs on (the file `index.html`) is not among the sources. -/
def Controller.bootstrap (sv : Server) (d : Dom) : World :=
  let state : State Dom := State.subscribe State.constructor Controller.render
  let sv1 := API.getInventory state.currentPage sv
  { server := (API.getCart sv1).2, state := state, dom := d }

/-- The user typing into the quantity input of the row at position `index`. -/
def Controller.typeValue (index : Nat) (v : JsNum) : List InventoryRow → List InventoryRow
  | [] => []
  | row :: rows =>
    match index with
    | 0 => { row with value := v } :: rows
    | n + 1 => row :: Controller.typeValue n v rows

/-- What can happen once `bootstrap` has run. -/
inductive Event where
  | clickInventory (target : Target)
  | typeQuantity (index : Nat) (v : JsNum)
  | clickCart (target : Target)
  | clickCheckout
  | clickPrev
  | clickNext
  | inventoryReply (data : InventoryReply)
  | cartReply

/-- One event.  A click inside the inventory list runs the listener of `handleUpdateAmount`
and then the listener of `handleAddToCart`, the order in which `bootstrap` installed them. -/
def Controller.step (w : World) : Event → Option World
  | Event.clickInventory target =>
    Controller.handleAddToCart
      { w with dom := Controller.handleUpdateAmount w.dom target } target
  | Event.typeQuantity index v =>
    some { w with dom := { w.dom with
      inventoryList := Controller.typeValue index v w.dom.inventoryList } }
  | Event.clickCart target => some (Controller.handleDelete w target)
  | Event.clickCheckout => some (Controller.handleCheckout w)
  | Event.clickPrev => some (Controller.handlePaginationPrev w)
  | Event.clickNext => some (Controller.handlePaginationNext w)
  | Event.inventoryReply data => some (Controller.onInventory w data)
  | Event.cartReply => some (Controller.onCart w)

/-- A sequence of events, from a given world. -/
def Controller.run (w : World) : List Event → Option World
  | [] => some w
  | e :: es =>
    match Controller.step w e with
    | none => none
    | some w1 => Controller.run w1 es

/-- The page before the first render, as far as this development needs it: empty lists. -/
def View.emptyPage : Dom :=
  { inventoryList := [], cartList := [], prevDisabled := false, nextDisabled := false,
    pageInfo := (1, 1) }

/-- A backend with an empty cart that has received no request. -/
def Server.empty : Server := { cart := [], log := [] }

/-! ## Predicates used in the statements -/

/-- The render callback is subscribed, and every row of the inventory list carries the id of an
item of `state.inventory`. -/
def Controller.Wired (w : World) : Prop :=
  w.state.onChange = some Controller.render ∧
  ∀ i ∈ w.dom.inventoryList.map (fun row => row.dataId),
    i ∈ w.state.inventory.map (fun item => item.id)

/-- The totals of the inventory replies in a sequence of events are at least `lo` and none is
smaller than the one before it. -/
def Controller.totalsGrow : Nat → List Event → Bool
  | _, [] => true
  | lo, Event.inventoryReply data :: es =>
    decide (lo ≤ data.total) && Controller.totalsGrow data.total es
  | lo, _ :: es => Controller.totalsGrow lo es

/-- The page numbers after an event, from the page numbers before it. -/
def Controller.pagesAfter (currentPage totalPages : Int) : Event → Int × Int
  | Event.clickPrev => (if 1 < currentPage then currentPage - 1 else currentPage, totalPages)
  | Event.clickNext =>
    (if currentPage < totalPages then currentPage + 1 else currentPage, totalPages)
  | Event.inventoryReply data => (currentPage, State.pagesFor data.total)
  | _ => (currentPage, totalPages)

/-- Every inventory reply in a sequence of events, met on page `currentPage` of `totalPages`,
reports a total that reaches the page current when it arrives: `2 * currentPage - 1 ≤ total`. -/
def Controller.totalsCover (currentPage totalPages : Int) : List Event → Bool
  | [] => true
  | e :: es =>
    (match e with
      | Event.inventoryReply data => decide (2 * currentPage - 1 ≤ (data.total : Int))
      | _ => true) &&
    Controller.totalsCover (Controller.pagesAfter currentPage totalPages e).1
      (Controller.pagesAfter currentPage totalPages e).2 es

/-- An inventory item to instantiate the statements with. -/
def Sample.apple : InventoryItem := ⟨1, "apple", []⟩

/-- A world after `bootstrap`: `apple` is shown with `2` typed into its quantity input, and
`state.cart` and the backend cart are both `cart`. -/
def Sample.world (cart : List CartItem) : World :=
  { server := { cart := cart, log := [] },
    state := { inventory := [Sample.apple], cart := cart, currentPage := 1, totalPages := 1,
               onChange := some Controller.render },
    dom := { View.emptyPage with inventoryList := [⟨"apple", 1, some 2⟩] } }

/-! ## General facts -/

open Controller

theorem State.pagesFor_eq (total : Nat) : State.pagesFor total = ((total + 1) / 2 : Nat) := by
  unfold State.pagesFor API.ITEMS_PER_PAGE
  rw [Int.ceil_eq_iff]
  obtain ⟨k, hk | hk⟩ := Nat.even_or_odd' total
  · have h : (total + 1) / 2 = k := by omega
    rw [h, hk]; push_cast
    constructor <;> linarith
  · have h : (total + 1) / 2 = k + 1 := by omega
    rw [h, hk]; push_cast
    constructor <;> linarith

theorem State.val_callOnChange_fst {ω : Type} (s : State ω) (w : ω) :
    (State.callOnChange s w).val.1 = s := by
  unfold State.callOnChange
  cases s.onChange <;> rfl

theorem API.foldl_delete_log (l : List CartItem) (sv : Server) :
    (l.foldl (fun acc item => API.deleteFromCart item.id acc) sv).cart
      = l.foldl (fun acc item => Store.delete item.id acc) sv.cart := by
  induction l generalizing sv with
  | nil => rfl
  | cons x xs ih => simp only [List.foldl_cons]; rw [ih]; rfl

theorem Store.foldl_delete_self (l : List CartItem) :
    l.foldl (fun acc item => Store.delete item.id acc) l = [] := by
  induction l with
  | nil => rfl
  | cons x xs ih => simpa [Store.delete] using ih

theorem API.checkout_cart (sv : Server) : (API.checkout sv).cart = [] := by
  unfold API.checkout
  rw [API.foldl_delete_log]
  exact Store.foldl_delete_self sv.cart

theorem Controller.thenGetCart_state_cart (sv : Server) (w : World) :
    (Controller.thenGetCart sv w).state.cart = sv.cart := by
  simp [Controller.thenGetCart, State.setCart, State.val_callOnChange_fst, API.getCart]

theorem Controller.thenGetCart_server_cart (sv : Server) (w : World) :
    (Controller.thenGetCart sv w).server.cart = sv.cart := by
  simp [Controller.thenGetCart, API.getCart]

theorem Store.delete_eq_filter (id : Nat) (l : List CartItem)
    (h : (l.map (fun x => x.id)).Nodup) :
    Store.delete id l = l.filter (fun x => decide (x.id ≠ id)) := by
  induction l with
  | nil => rfl
  | cons x xs ih =>
    simp only [List.map_cons, List.nodup_cons, List.mem_map, not_exists, not_and] at h
    unfold Store.delete
    by_cases hx : x.id = id
    · simp only [hx, if_true]
      rw [List.filter_cons_of_neg (by simp [hx])]
      symm
      rw [List.filter_eq_self]
      intro a ha
      have := h.1 a ha
      simp only [decide_eq_true_eq]
      intro hc; exact this (hc.trans hx.symm)
    · simp only [hx, if_false]
      rw [List.filter_cons_of_pos (by simpa using hx), ih h.2]

theorem Store.delete_sublist (id : Nat) (l : List CartItem) :
    (Store.delete id l).Sublist l := by
  induction l with
  | nil => exact List.Sublist.refl _
  | cons x xs ih =>
    unfold Store.delete
    split
    · exact List.sublist_cons_self _ _
    · exact ih.cons₂ _

theorem Store.delete_length (id : Nat) (l : List CartItem) (e : CartItem) (he : e ∈ l)
    (hid : e.id = id) : (Store.delete id l).length + 1 = l.length := by
  induction l with
  | nil => simp at he
  | cons x xs ih =>
    unfold Store.delete
    by_cases hx : x.id = id
    · simp [hx]
    · rcases List.mem_cons.1 he with rfl | hmem
      · exact absurd hid hx
      · simp [hx, ih hmem]

theorem Controller.thenGetCart_log (sv : Server) (w : World) :
    (Controller.thenGetCart sv w).server.log = sv.log ++ [Request.getCart] := by
  simp [Controller.thenGetCart, API.getCart]


theorem Controller.setValue_dataIds (id : Nat) (v : JsNum) (l : List InventoryRow) :
    (setValue id v l).map (fun row => row.dataId) = l.map (fun row => row.dataId) := by
  induction l with
  | nil => rfl
  | cons x xs ih =>
    unfold setValue
    split
    · rfl
    · simp [ih]

theorem Controller.typeValue_dataIds (v : JsNum) (l : List InventoryRow) (index : Nat) :
    (typeValue index v l).map (fun row => row.dataId) = l.map (fun row => row.dataId) := by
  induction l generalizing index with
  | nil => simp [typeValue]
  | cons x xs ih =>
    cases index with
    | zero => rfl
    | succ n => simp [typeValue, ih]

theorem Controller.updateAmountMinus_dataIds (d : Dom) (t : Target) :
    (handleUpdateAmountMinus d t).inventoryList.map (fun row => row.dataId)
      = d.inventoryList.map (fun row => row.dataId) := by
  unfold handleUpdateAmountMinus
  split
  · split
    · rfl
    · split
      · exact Controller.setValue_dataIds _ _ _
      · rfl
  · rfl

theorem Controller.handleUpdateAmount_dataIds (d : Dom) (t : Target) :
    (handleUpdateAmount d t).inventoryList.map (fun row => row.dataId)
      = d.inventoryList.map (fun row => row.dataId) := by
  unfold handleUpdateAmount
  split
  · split
    · rfl
    · rw [Controller.updateAmountMinus_dataIds]
      exact Controller.setValue_dataIds _ _ _
  · exact Controller.updateAmountMinus_dataIds _ _

theorem Controller.render_dataIds (f : Fields) (d : Dom) :
    (render f d).inventoryList.map (fun row => row.dataId)
      = f.inventory.map (fun item => item.id) := by
  simp [render, View.renderPagination, View.renderCart, View.renderInventory]

/-- Under a subscribed render callback, the tail of a cart handler stores the cart and renders. -/
theorem Controller.thenGetCart_eq (sv : Server) (w : World)
    (hsub : w.state.onChange = some render) :
    thenGetCart sv w
      = { server := (API.getCart sv).2,
          state := { w.state with cart := sv.cart },
          dom := render { w.state.toFields with cart := sv.cart } w.dom } := by
  simp [thenGetCart, State.setCart, State.callOnChange, hsub, Outcome.val, API.getCart]

theorem Controller.wired_thenGetCart (sv : Server) (w : World) (h : Wired w) :
    Wired (thenGetCart sv w) := by
  rw [Controller.thenGetCart_eq sv w h.1]
  refine ⟨h.1, ?_⟩
  intro i hi
  rw [Controller.render_dataIds] at hi
  exact hi

theorem Controller.thenGetCart_pages (sv : Server) (w : World) :
    (thenGetCart sv w).state.currentPage = w.state.currentPage ∧
    (thenGetCart sv w).state.totalPages = w.state.totalPages ∧
    (thenGetCart sv w).state.inventory = w.state.inventory := by
  simp [thenGetCart, State.setCart, State.val_callOnChange_fst]

theorem Controller.turnPage_eq (w : World) (newPage : Int)
    (hsub : w.state.onChange = some render) :
    turnPage w newPage
      = { server := API.getInventory newPage w.server,
          state := { w.state with currentPage := newPage },
          dom := render { w.state.toFields with currentPage := newPage } w.dom } := by
  simp [turnPage, State.setCurrentPage, State.callOnChange, hsub]

theorem Controller.turnPage_pages (w : World) (newPage : Int) :
    (turnPage w newPage).state.currentPage = newPage ∧
    (turnPage w newPage).state.totalPages = w.state.totalPages := by
  unfold turnPage State.setCurrentPage State.callOnChange
  cases w.state.onChange <;> simp

theorem Controller.onInventory_eq (w : World) (data : InventoryReply)
    (hsub : w.state.onChange = some render) :
    onInventory w data
      = { server := w.server,
          state := { w.state with
            inventory := data.items
            totalPages := State.pagesFor data.total },
          dom := render { w.state.toFields with
            inventory := data.items
            totalPages := State.pagesFor data.total } w.dom } := by
  simp [onInventory, State.setInventory, State.callOnChange, hsub, Outcome.val]

theorem Controller.onCart_eq (w : World) (hsub : w.state.onChange = some render) :
    onCart w
      = { server := w.server,
          state := { w.state with cart := w.server.cart },
          dom := render { w.state.toFields with cart := w.server.cart } w.dom } := by
  simp [onCart, State.setCart, State.callOnChange, hsub, Outcome.val]

/-- From a wired world every event has an outcome, and the outcome is wired. -/
theorem Controller.step_wired (w : World) (e : Event) (h : Wired w) :
    ∃ w1, step w e = some w1 ∧ Wired w1 := by
  cases e with
  | clickInventory target =>
    have h1 : Wired { w with dom := handleUpdateAmount w.dom target } := by
      refine ⟨h.1, ?_⟩
      intro i hi
      simp only [Controller.handleUpdateAmount_dataIds] at hi
      exact h.2 i hi
    simp only [step]
    generalize ({ w with dom := handleUpdateAmount w.dom target } : World) = w2 at h1
    unfold handleAddToCart
    dsimp only
    split
    · split
      · exact ⟨_, rfl, h1⟩
      · rename_i quantityInput hq
        split
        · exact ⟨_, rfl, h1⟩
        · split
          · split
            · exact ⟨_, rfl, Controller.wired_thenGetCart _ _ h1⟩
            · split
              · exact ⟨_, rfl, Controller.wired_thenGetCart _ _ h1⟩
              · rename_i hnone
                exfalso
                have hmem : quantityInput ∈ w2.dom.inventoryList := List.mem_of_find?_eq_some hq
                have hid : quantityInput.dataId = target.dataId := by
                  simpa using List.find?_some hq
                have := h1.2 target.dataId (List.mem_map.2 ⟨_, hmem, hid⟩)
                obtain ⟨item, hitem, hiid⟩ := List.mem_map.1 this
                have := List.find?_eq_none.1 hnone item hitem
                simp [hiid] at this
          · exact ⟨_, rfl, h1⟩
    · exact ⟨_, rfl, h1⟩
  | typeQuantity index v =>
    refine ⟨_, rfl, h.1, ?_⟩
    intro i hi
    simp only [Controller.typeValue_dataIds] at hi
    exact h.2 i hi
  | clickCart target =>
    refine ⟨_, rfl, ?_⟩
    unfold handleDelete
    split
    · exact Controller.wired_thenGetCart _ _ h
    · exact h
  | clickCheckout => exact ⟨_, rfl, Controller.wired_thenGetCart _ _ h⟩
  | clickPrev =>
    refine ⟨_, rfl, ?_⟩
    unfold handlePaginationPrev
    split
    · rw [Controller.turnPage_eq _ _ h.1]
      refine ⟨h.1, ?_⟩
      intro i hi
      rw [Controller.render_dataIds] at hi
      exact hi
    · exact h
  | clickNext =>
    refine ⟨_, rfl, ?_⟩
    unfold handlePaginationNext
    split
    · rw [Controller.turnPage_eq _ _ h.1]
      refine ⟨h.1, ?_⟩
      intro i hi
      rw [Controller.render_dataIds] at hi
      exact hi
    · exact h
  | inventoryReply data =>
    refine ⟨_, rfl, ?_⟩
    rw [Controller.onInventory_eq _ _ h.1]
    refine ⟨h.1, ?_⟩
    intro i hi
    rw [Controller.render_dataIds] at hi
    exact hi
  | cartReply =>
    refine ⟨_, rfl, ?_⟩
    rw [Controller.onCart_eq _ h.1]
    refine ⟨h.1, ?_⟩
    intro i hi
    rw [Controller.render_dataIds] at hi
    exact hi

theorem Controller.wired_bootstrap (sv : Server) (d : Dom) (hd : d.inventoryList = []) :
    Wired (bootstrap sv d) := by
  refine ⟨rfl, ?_⟩
  intro i hi
  simp [bootstrap, hd] at hi

/-- What an add-to-cart listener that returns has done: nothing, a PATCH of an entry of
`state.cart`, or a POST of an inventory item that `state.cart` lacks; the last two with a
positive quantity and followed by the reading of the cart. -/
theorem Controller.handleAddToCart_cases (w w1 : World) (t : Target)
    (h : handleAddToCart w t = some w1) :
    w1 = w ∨
    (∃ (c : CartItem) (q : Int), c ∈ w.state.cart ∧ c.id = t.dataId ∧ 0 < q ∧
      w1 = thenGetCart (API.updateCart t.dataId (c.quantity + q) w.server) w) ∨
    (∃ (item : InventoryItem) (q : Int), (∀ x ∈ w.state.cart, x.id ≠ t.dataId) ∧
      item.id = t.dataId ∧ 0 < q ∧
      w1 = thenGetCart
        (API.addToCart ({ toInventoryItem := item, quantity := q } : CartItem) w.server) w) := by
  unfold handleAddToCart at h
  dsimp only at h
  split at h
  · split at h
    · exact Or.inl (Option.some.inj h).symm
    · split at h
      · exact Or.inl (Option.some.inj h).symm
      · rename_i quantity _
        split at h
        · rename_i hpos
          split at h
          · rename_i cartItem hc
            refine Or.inr (Or.inl ⟨cartItem, quantity, List.mem_of_find?_eq_some hc, ?_, hpos,
              (Option.some.inj h).symm⟩)
            simpa using List.find?_some hc
          · rename_i hc
            split at h
            · rename_i inventoryItem hi
              refine Or.inr (Or.inr ⟨inventoryItem, quantity, ?_, ?_, hpos,
                (Option.some.inj h).symm⟩)
              · intro x hx
                simpa using List.find?_eq_none.1 hc x hx
              · simpa using List.find?_some hi
            · exact absurd h (by simp)
        · exact Or.inl (Option.some.inj h).symm
  · exact Or.inl (Option.some.inj h).symm

theorem Controller.onInventory_fields (w : World) (data : InventoryReply) :
    (onInventory w data).state.cart = w.state.cart ∧
    (onInventory w data).server = w.server ∧
    (onInventory w data).state.currentPage = w.state.currentPage ∧
    (onInventory w data).state.totalPages = State.pagesFor data.total := by
  simp [onInventory, State.setInventory, State.val_callOnChange_fst]

theorem Controller.onCart_fields (w : World) :
    (onCart w).state.cart = w.server.cart ∧
    (onCart w).server = w.server ∧
    (onCart w).state.currentPage = w.state.currentPage ∧
    (onCart w).state.totalPages = w.state.totalPages := by
  simp [onCart, State.setCart, State.val_callOnChange_fst]

/-- The page numbers after an event are those that `pagesAfter` computes. -/
theorem Controller.step_pages (w w1 : World) (e : Event) (h : step w e = some w1) :
    (w1.state.currentPage, w1.state.totalPages)
      = pagesAfter w.state.currentPage w.state.totalPages e := by
  cases e with
  | clickInventory target =>
    simp only [step] at h
    rcases Controller.handleAddToCart_cases _ _ _ h with h1 | ⟨c, q, _, _, _, h1⟩ |
      ⟨item, q, _, _, _, h1⟩
    · subst h1; rfl
    · subst h1
      simp [Controller.thenGetCart_pages, pagesAfter]
    · subst h1
      simp [Controller.thenGetCart_pages, pagesAfter]
  | typeQuantity index v =>
    simp only [step, Option.some.injEq] at h
    subst h; rfl
  | clickCart target =>
    simp only [step, Option.some.injEq] at h
    subst h
    unfold handleDelete
    split
    · simp [Controller.thenGetCart_pages, pagesAfter]
    · rfl
  | clickCheckout =>
    simp only [step, Option.some.injEq] at h
    subst h
    simp [handleCheckout, Controller.thenGetCart_pages, pagesAfter]
  | clickPrev =>
    simp only [step, Option.some.injEq] at h
    subst h
    unfold handlePaginationPrev pagesAfter
    split
    · simp [Controller.turnPage_pages]
    · rfl
  | clickNext =>
    simp only [step, Option.some.injEq] at h
    subst h
    unfold handlePaginationNext pagesAfter
    split
    · simp [Controller.turnPage_pages]
    · rfl
  | inventoryReply data =>
    simp only [step, Option.some.injEq] at h
    subst h
    simp [Controller.onInventory_fields, pagesAfter]
  | cartReply =>
    simp only [step, Option.some.injEq] at h
    subst h
    simp [Controller.onCart_fields, pagesAfter]

/-- From a wired world with `currentPage ≥ 1` every sequence of events has an outcome, in which
`currentPage ≥ 1` still; and `currentPage ≤ totalPages` is kept when the totals of the replies
never fall below what `totalPages` was computed from. -/
theorem Controller.run_pages (es : List Event) :
    ∀ (w : World) (lo : Nat), Wired w → 1 ≤ w.state.currentPage →
      ∃ w1, run w es = some w1 ∧ Wired w1 ∧ 1 ≤ w1.state.currentPage ∧
        (totalsGrow lo es = true → w.state.currentPage ≤ w.state.totalPages →
          w.state.totalPages ≤ (((lo + 1) / 2 : Nat) : Int) →
          w1.state.currentPage ≤ w1.state.totalPages) := by
  induction es with
  | nil =>
    intro w lo hw h1
    exact ⟨w, rfl, hw, h1, fun _ h _ => h⟩
  | cons e es ih =>
    intro w lo hw h1
    obtain ⟨w2, hstep, hw2⟩ := Controller.step_wired w e hw
    have hp := Controller.step_pages w w2 e hstep
    have hcur : 1 ≤ w2.state.currentPage := by
      cases e <;> simp only [pagesAfter, Prod.mk.injEq] at hp <;> try (rw [hp.1]; try exact h1)
      all_goals split <;> omega
    cases e with
    | inventoryReply data =>
      simp only [pagesAfter, Prod.mk.injEq, State.pagesFor_eq] at hp
      obtain ⟨w3, hrun, hw3, hc3, himp⟩ := ih w2 data.total hw2 hcur
      refine ⟨w3, by simp [run, hstep, hrun], hw3, hc3, ?_⟩
      intro hg hle htp
      simp only [totalsGrow, Bool.and_eq_true, decide_eq_true_eq] at hg
      apply himp hg.2
      · rw [hp.1, hp.2]; omega
      · rw [hp.2]
    | clickPrev =>
      simp only [pagesAfter, Prod.mk.injEq] at hp
      obtain ⟨w3, hrun, hw3, hc3, himp⟩ := ih w2 lo hw2 hcur
      refine ⟨w3, by simp [run, hstep, hrun], hw3, hc3, ?_⟩
      intro hg hle htp
      apply himp (by simpa [totalsGrow] using hg)
      · rw [hp.1, hp.2]; split <;> omega
      · rw [hp.2]; exact htp
    | clickNext =>
      simp only [pagesAfter, Prod.mk.injEq] at hp
      obtain ⟨w3, hrun, hw3, hc3, himp⟩ := ih w2 lo hw2 hcur
      refine ⟨w3, by simp [run, hstep, hrun], hw3, hc3, ?_⟩
      intro hg hle htp
      apply himp (by simpa [totalsGrow] using hg)
      · rw [hp.1, hp.2]; split <;> omega
      · rw [hp.2]; exact htp
    | _ =>
      simp only [pagesAfter, Prod.mk.injEq] at hp
      obtain ⟨w3, hrun, hw3, hc3, himp⟩ := ih w2 lo hw2 hcur
      refine ⟨w3, by simp [run, hstep, hrun], hw3, hc3, ?_⟩
      intro hg hle htp
      apply himp (by simpa [totalsGrow] using hg)
      · rw [hp.1, hp.2]; exact hle
      · rw [hp.2]; exact htp

/-- From a wired world with `currentPage ≤ totalPages`, a sequence of events whose replies all
report a total that reaches the current page ends with `currentPage ≤ totalPages`. -/
theorem Controller.run_cover (es : List Event) :
    ∀ w : World, Wired w → w.state.currentPage ≤ w.state.totalPages →
      totalsCover w.state.currentPage w.state.totalPages es = true →
      ∃ w1, run w es = some w1 ∧ w1.state.currentPage ≤ w1.state.totalPages := by
  induction es with
  | nil => intro w _ hle _; exact ⟨w, rfl, hle⟩
  | cons e es ih =>
    intro w hw hle hc
    obtain ⟨w2, hstep, hw2⟩ := Controller.step_wired w e hw
    have hp := Controller.step_pages w w2 e hstep
    simp only [totalsCover, Bool.and_eq_true] at hc
    rw [← hp] at hc
    have hle2 : w2.state.currentPage ≤ w2.state.totalPages := by
      cases e with
      | inventoryReply data =>
        simp only [pagesAfter, Prod.mk.injEq, State.pagesFor_eq] at hp
        have h1 := hc.1
        simp only [decide_eq_true_eq] at h1
        rw [hp.1, hp.2]; omega
      | clickPrev =>
        simp only [pagesAfter, Prod.mk.injEq] at hp
        rw [hp.1, hp.2]; split <;> omega
      | clickNext =>
        simp only [pagesAfter, Prod.mk.injEq] at hp
        rw [hp.1, hp.2]; split <;> omega
      | _ =>
        simp only [pagesAfter, Prod.mk.injEq] at hp
        rw [hp.1, hp.2]; exact hle
    obtain ⟨w3, hrun, h3⟩ := ih w2 hw2 hle2 hc.2
    exact ⟨w3, by simp [run, hstep, hrun], h3⟩

theorem Store.delete_ids (i : Nat) (l : List CartItem) :
    (Store.delete i l).map (fun x => x.id) = (l.map (fun x => x.id)).erase i := by
  induction l with
  | nil => rfl
  | cons x xs ih =>
    unfold Store.delete
    by_cases hx : x.id = i
    · simp [hx]
    · simp [hx, List.erase_cons, ih]

theorem Store.foldl_delete_any_order (order : List CartItem) :
    ∀ l : List CartItem, (l.map (fun x => x.id)).Subperm (order.map (fun x => x.id)) →
      order.foldl (fun acc item => Store.delete item.id acc) l = [] := by
  induction order with
  | nil =>
    intro l h
    have : l.map (fun x => x.id) = [] := by simpa using h
    simpa using this
  | cons x xs ih =>
    intro l h
    simp only [List.foldl_cons]
    apply ih
    rw [Store.delete_ids]
    have := h.erase x.id
    simpa using this

/-! ## Checkout -/

/-- Claim C1: whatever the backend cart holds, once `API.checkout()` has completed the backend
cart is empty, and the checkout click handler, which then reads the cart again, leaves the
backend cart empty and sets `state.cart` to the empty list.  The deletions that `Promise.all`
has in flight together empty the cart in whatever order they reach the backend. -/
theorem checkout_empties_cart (w : World) :
    (API.checkout w.server).cart = [] ∧
    (Controller.handleCheckout w).server.cart = [] ∧
    (Controller.handleCheckout w).state.cart = [] ∧
    (∀ order : List CartItem, order.Perm (API.getCart w.server).1 →
      (order.foldl (fun acc item => API.deleteFromCart item.id acc)
        (API.getCart w.server).2).cart = []) := by
  refine ⟨API.checkout_cart _, ?_, ?_, ?_⟩
  · rw [Controller.handleCheckout, Controller.thenGetCart_server_cart, API.checkout_cart]
  · rw [Controller.handleCheckout, Controller.thenGetCart_state_cart, API.checkout_cart]
  · intro order h
    rw [API.foldl_delete_log]
    exact Store.foldl_delete_any_order order _ (h.symm.map _).subperm

/-! ## The setters of `State` -/

/-- Claim C2, as stated, fails: on a freshly constructed `State`, to which nothing has been
subscribed, each of the three setters stores the value and then throws; no callback is run (the
record of calls stays empty). -/
theorem setter_before_subscribe_throws :
    ((State.constructor : State (List Fields)).setCart [⟨⟨1, "a", []⟩, 2⟩] []).threw = true ∧
    ((State.constructor : State (List Fields)).setCart [⟨⟨1, "a", []⟩, 2⟩] []).val.2 = [] ∧
    ((State.constructor : State (List Fields)).setCart [⟨⟨1, "a", []⟩, 2⟩] []).val.1.cart
      = [⟨⟨1, "a", []⟩, 2⟩] ∧
    ((State.constructor : State (List Fields)).setInventory ⟨[⟨1, "a", []⟩], 1⟩ []).threw = true ∧
    ((State.constructor : State (List Fields)).setInventory ⟨[⟨1, "a", []⟩], 1⟩ []).val.2 = [] ∧
    ((State.constructor : State (List Fields)).setCurrentPage 2 []).threw = true ∧
    ((State.constructor : State (List Fields)).setCurrentPage 2 []).val.2 = [] := by
  refine ⟨rfl, rfl, rfl, rfl, rfl, rfl, rfl⟩

/-- Claim C2, amended: on a `State` to which a callback `cb` is subscribed, each of the three
setters ends normally, leaves the state with the new value stored and everything else as it
was, and has run `cb` once, on the surroundings as they were, with the fields as they are after
the store.  On a `State` to which nothing is subscribed, each setter stores the new value and
then throws, and the surroundings stay as they were. -/
theorem setter_calls_onChange_once {ω : Type} (s : State ω) (w : ω)
    (newCart : List CartItem) (newInventory : InventoryReply) (newPage : Int) :
    (∀ cb : Fields → ω → ω, s.onChange = some cb →
      s.setCart newCart w
        = Outcome.ok ({ s with cart := newCart },
            cb { s.toFields with cart := newCart } w) ∧
      s.setInventory newInventory w
        = Outcome.ok ({ s with inventory := newInventory.items,
                               totalPages := State.pagesFor newInventory.total },
            cb { s.toFields with inventory := newInventory.items,
                                 totalPages := State.pagesFor newInventory.total } w) ∧
      s.setCurrentPage newPage w
        = Outcome.ok ({ s with currentPage := newPage },
            cb { s.toFields with currentPage := newPage } w)) ∧
    (s.onChange = none →
      s.setCart newCart w = Outcome.throws ({ s with cart := newCart }, w) ∧
      s.setInventory newInventory w
        = Outcome.throws ({ s with inventory := newInventory.items,
                                   totalPages := State.pagesFor newInventory.total }, w) ∧
      s.setCurrentPage newPage w = Outcome.throws ({ s with currentPage := newPage }, w)) := by
  constructor
  · intro cb hsub
    refine ⟨?_, ?_, ?_⟩
    · simp [State.setCart, State.callOnChange, hsub]
    · simp [State.setInventory, State.callOnChange, hsub]
    · simp [State.setCurrentPage, State.callOnChange, hsub]
  · intro hnone
    refine ⟨?_, ?_, ?_⟩
    · simp [State.setCart, State.callOnChange, hnone]
    · simp [State.setInventory, State.callOnChange, hnone]
    · simp [State.setCurrentPage, State.callOnChange, hnone]

/-- A callback that records the fields it sees is subscribed; an assignment to `cart` then adds
one record, and that record holds the new cart. -/
theorem setter_calls_onChange_once_witness :
    ((State.constructor : State (List Fields)).subscribe (fun f log => log ++ [f])).onChange
        = some (fun f log => log ++ [f]) ∧
    (((State.constructor : State (List Fields)).subscribe (fun f log => log ++ [f])).setCart
        [⟨⟨1, "a", []⟩, 2⟩] []).val.2
      = [{ inventory := [], cart := [⟨⟨1, "a", []⟩, 2⟩], currentPage := 1, totalPages := 1 }] :=
  ⟨rfl, by
    rw [((setter_calls_onChange_once
      ((State.constructor : State (List Fields)).subscribe (fun f log => log ++ [f]))
      [] [⟨⟨1, "a", []⟩, 2⟩] ⟨[], 0⟩ 1).1 (fun f log => log ++ [f]) rfl).1]
    rfl⟩

/-- Claim C5: the backend cart has pairwise distinct ids and is the cart shown (`state.cart`);
a click on the delete button of a shown entry `e` leaves a `state.cart` that is the previous
cart without `e`: one entry fewer, `e` gone, every other entry still there, unchanged and in
the same relative order. -/
theorem delete_removes_entry (w : World) (e : CartItem)
    (hids : (w.server.cart.map (fun x => x.id)).Nodup)
    (hsync : w.state.cart = w.server.cart) (he : e ∈ w.state.cart) :
    (Controller.handleDelete w ⟨["delete-btn"], e.id⟩).state.cart
      = w.state.cart.filter (fun x => decide (x.id ≠ e.id)) ∧
    (Controller.handleDelete w ⟨["delete-btn"], e.id⟩).state.cart.length + 1
      = w.state.cart.length ∧
    e ∉ (Controller.handleDelete w ⟨["delete-btn"], e.id⟩).state.cart ∧
    (∀ x ∈ w.state.cart, x ≠ e →
      x ∈ (Controller.handleDelete w ⟨["delete-btn"], e.id⟩).state.cart) ∧
    ((Controller.handleDelete w ⟨["delete-btn"], e.id⟩).state.cart).Sublist w.state.cart := by
  have hcart : (Controller.handleDelete w ⟨["delete-btn"], e.id⟩).state.cart
      = Store.delete e.id w.state.cart := by
    simp [Controller.handleDelete, Controller.thenGetCart_state_cart, API.deleteFromCart, hsync]
  rw [hsync] at he ⊢
  rw [hsync] at hcart
  have hfil := Store.delete_eq_filter e.id _ hids
  have hne : ∀ x ∈ w.server.cart, x ≠ e → x.id ≠ e.id := by
    intro x hx hxe hid
    exact hxe (List.inj_on_of_nodup_map hids hx he hid)
  refine ⟨hcart.trans hfil, ?_, ?_, ?_, ?_⟩
  · rw [hcart]; exact Store.delete_length _ _ e he rfl
  · rw [hcart, hfil]; simp
  · intro x hx hxe
    rw [hcart, hfil]
    simp [hx, hne x hx hxe]
  · rw [hcart]; exact Store.delete_sublist _ _

/-- A cart of two entries; the delete button of the first is clicked. -/
theorem delete_removes_entry_witness :
    ((Sample.world [⟨Sample.apple, 2⟩, ⟨⟨2, "pear", []⟩, 1⟩]).server.cart.map
      (fun x => x.id)).Nodup ∧
    (Sample.world [⟨Sample.apple, 2⟩, ⟨⟨2, "pear", []⟩, 1⟩]).state.cart
      = (Sample.world [⟨Sample.apple, 2⟩, ⟨⟨2, "pear", []⟩, 1⟩]).server.cart ∧
    (Controller.handleDelete (Sample.world [⟨Sample.apple, 2⟩, ⟨⟨2, "pear", []⟩, 1⟩])
      ⟨["delete-btn"], 1⟩).state.cart = [⟨⟨2, "pear", []⟩, 1⟩] :=
  ⟨by decide, rfl,
   (delete_removes_entry (Sample.world [⟨Sample.apple, 2⟩, ⟨⟨2, "pear", []⟩, 1⟩])
      ⟨Sample.apple, 2⟩ (by decide) rfl (List.mem_cons_self _ _)).1.trans rfl⟩

/-- Claim C3: for every backend cart and every state, when the chain of a delete click, of a
checkout click, or of an add-to-cart click on a shown item with an entered quantity `q > 0` has
completed, `state.cart` equals the backend cart as the request left it; in the add-to-cart
case the handler does return and a request has been issued. -/
theorem cart_handlers_sync (w : World) :
    (∀ id : Nat,
      (Controller.handleDelete w ⟨["delete-btn"], id⟩).server.cart = Store.delete id w.server.cart ∧
      (Controller.handleDelete w ⟨["delete-btn"], id⟩).state.cart
        = (Controller.handleDelete w ⟨["delete-btn"], id⟩).server.cart) ∧
    ((Controller.handleCheckout w).server.cart = [] ∧
      (Controller.handleCheckout w).state.cart = (Controller.handleCheckout w).server.cart) ∧
    (∀ (item : InventoryItem) (row : InventoryRow) (q : Int),
      item ∈ w.state.inventory →
      Controller.querySelector w.dom item.id = some row → row.value = some q → 0 < q →
      ∃ w1, Controller.handleAddToCart w ⟨["add-to-cart-btn"], item.id⟩ = some w1 ∧
        w1.server.log ≠ w.server.log ∧
        w1.state.cart = w1.server.cart) := by
  refine ⟨?_, ?_, ?_⟩
  · intro id
    simp [Controller.handleDelete, Controller.thenGetCart_state_cart,
      Controller.thenGetCart_server_cart, API.deleteFromCart]
  · simp [Controller.handleCheckout, Controller.thenGetCart_state_cart,
      Controller.thenGetCart_server_cart, API.checkout_cart]
  · intro item row q hitem hrow hq hpos
    unfold Controller.handleAddToCart
    simp only [List.contains_cons, List.contains_nil, Bool.or_false, beq_self_eq_true, if_true,
      hrow, hq, hpos]
    cases hc : w.state.cart.find? (fun x => x.id == item.id) with
    | some c =>
      refine ⟨_, rfl, ?_, ?_⟩
      · simp [Controller.thenGetCart_log, API.updateCart]
      · rw [Controller.thenGetCart_state_cart, Controller.thenGetCart_server_cart]
    | none =>
      cases hi : w.state.inventory.find? (fun x => x.id == item.id) with
      | none =>
        have := List.find?_eq_none.1 hi item hitem
        simp at this
      | some it =>
        refine ⟨_, rfl, ?_, ?_⟩
        · simp [Controller.thenGetCart_log, API.addToCart]
        · rw [Controller.thenGetCart_state_cart, Controller.thenGetCart_server_cart]

/-- With an empty cart, 2 is entered for `apple` and its add-to-cart button is clicked. -/
theorem cart_handlers_sync_witness :
    ∃ w1, Controller.handleAddToCart (Sample.world []) ⟨["add-to-cart-btn"], 1⟩ = some w1 ∧
      w1.server.log ≠ (Sample.world []).server.log ∧
      w1.state.cart = w1.server.cart :=
  (cart_handlers_sync (Sample.world [])).2.2 Sample.apple ⟨"apple", 1, some 2⟩ 2
    (List.mem_cons_self _ _) rfl rfl (by decide)

/-! ## Pagination -/

/-- Claim C8, as stated, fails: a reply that reports a total of 0 leaves page 1 of 0; and on
page 2 of 2 a reply that reports a total of 1 leaves page 2 of 1.  In both `currentPage` exceeds
`totalPages`. -/
theorem pagination_invariant_fails :
    (∃ w, Controller.run (Controller.bootstrap Server.empty View.emptyPage)
        [Event.inventoryReply ⟨[], 0⟩] = some w ∧
      w.state.currentPage = 1 ∧ w.state.totalPages = 0 ∧
      ¬ (w.state.currentPage ≤ w.state.totalPages)) ∧
    (∃ w, Controller.run (Controller.bootstrap Server.empty View.emptyPage)
        [Event.inventoryReply ⟨[⟨1, "a", []⟩, ⟨2, "b", []⟩], 3⟩, Event.clickNext,
         Event.inventoryReply ⟨[], 1⟩] = some w ∧
      w.state.currentPage = 2 ∧ w.state.totalPages = 1 ∧
      ¬ (w.state.currentPage ≤ w.state.totalPages)) := by
  constructor
  · refine ⟨_, rfl, ?_⟩
    simp [Controller.onInventory_fields, State.pagesFor_eq, bootstrap, State.subscribe,
      State.constructor]
  · refine ⟨_, rfl, ?_⟩
    simp [Controller.onInventory_fields, State.pagesFor_eq, bootstrap, State.subscribe,
      State.constructor, handlePaginationNext, Controller.turnPage_pages]

/-- Claim C8, amended: after `bootstrap` on a page whose inventory list is empty, every
sequence of events (the clicks on previous and next and the inventory replies among them) has
an outcome, and in it `1 ≤ currentPage`.  Also `currentPage ≤ totalPages` there, if every
reply reports a total that reaches the page current when it arrives
(`2 * currentPage - 1 ≤ total`), and in particular if the replies report totals of at least 1
that never decrease.  A click on previous at page 1, and a click on next at the last page,
leave the world as it is: no page change, no request. -/
theorem pagination_invariant (sv : Server) (d : Dom) (hd : d.inventoryList = [])
    (es : List Event) :
    ∃ w, Controller.run (Controller.bootstrap sv d) es = some w ∧
      1 ≤ w.state.currentPage ∧
      (Controller.totalsCover 1 1 es = true → w.state.currentPage ≤ w.state.totalPages) ∧
      (Controller.totalsGrow 1 es = true → w.state.currentPage ≤ w.state.totalPages) ∧
      (w.state.currentPage = 1 → Controller.handlePaginationPrev w = w) ∧
      (w.state.currentPage = w.state.totalPages → Controller.handlePaginationNext w = w) := by
  have hwired := Controller.wired_bootstrap sv d hd
  obtain ⟨w, hrun, _, h1, h2⟩ :=
    Controller.run_pages es (bootstrap sv d) 1 hwired
      (by simp [bootstrap, State.subscribe, State.constructor])
  refine ⟨w, hrun, h1, ?_, ?_, ?_, ?_⟩
  · intro hc
    obtain ⟨w1, hrun1, hle⟩ := Controller.run_cover es (bootstrap sv d) hwired
      (by simp [bootstrap, State.subscribe, State.constructor]) hc
    rw [hrun] at hrun1
    cases hrun1
    exact hle
  · intro hg
    exact h2 hg (by simp [bootstrap, State.subscribe, State.constructor])
      (by simp [bootstrap, State.subscribe, State.constructor])
  · intro hc
    simp [handlePaginationPrev, hc]
  · intro hc
    simp [handlePaginationNext, hc]

/-- Three items in all, then two clicks on next: the page stays within `1 .. 2`. -/
theorem pagination_invariant_witness :
    View.emptyPage.inventoryList = [] ∧
    ∃ w, Controller.run (Controller.bootstrap Server.empty View.emptyPage)
        [Event.inventoryReply ⟨[Sample.apple], 3⟩, Event.clickNext, Event.clickNext] = some w ∧
      1 ≤ w.state.currentPage ∧ w.state.currentPage ≤ w.state.totalPages := by
  obtain ⟨w, hrun, h1, _, h2, _⟩ := pagination_invariant Server.empty View.emptyPage rfl
    [Event.inventoryReply ⟨[Sample.apple], 3⟩, Event.clickNext, Event.clickNext]
  exact ⟨rfl, w, hrun, h1, h2 (by decide)⟩

/-- Claim C9, as stated, fails: after a reply that reports a total of 0 the state is page 1 of
0; `renderPagination` leaves the next button enabled, yet a click on next changes nothing. -/
theorem next_button_enabled_without_effect :
    ∃ w, Controller.run (Controller.bootstrap Server.empty View.emptyPage)
        [Event.inventoryReply ⟨[], 0⟩] = some w ∧
      (View.renderPagination w.state.currentPage w.state.totalPages w.dom).nextDisabled = false ∧
      (Controller.handlePaginationNext w).state.currentPage = w.state.currentPage ∧
      Controller.handlePaginationNext w = w := by
  refine ⟨_, rfl, ?_⟩
  simp [Controller.onInventory_fields, State.pagesFor_eq, bootstrap, State.subscribe,
    State.constructor, handlePaginationNext, View.renderPagination]

/-- Claim C9, amended: in every state reached after `bootstrap` (on a page whose inventory list
is empty), `renderPagination` disables the previous button exactly when a click on previous
would leave `currentPage` unchanged; a disabled next button means that a click on next would
leave `currentPage` unchanged; and the next button is disabled exactly when a click on next
would leave `currentPage` unchanged provided `currentPage ≤ totalPages`, which holds when the
replies report totals of at least 1 that never decrease. -/
theorem pagination_buttons (sv : Server) (d d1 : Dom) (hd : d.inventoryList = [])
    (es : List Event) :
    ∃ w, Controller.run (Controller.bootstrap sv d) es = some w ∧
      ((View.renderPagination w.state.currentPage w.state.totalPages d1).prevDisabled = true
        ↔ (Controller.handlePaginationPrev w).state.currentPage = w.state.currentPage) ∧
      ((View.renderPagination w.state.currentPage w.state.totalPages d1).nextDisabled = true
        → (Controller.handlePaginationNext w).state.currentPage = w.state.currentPage) ∧
      (w.state.currentPage ≤ w.state.totalPages →
        ((View.renderPagination w.state.currentPage w.state.totalPages d1).nextDisabled = true
          ↔ (Controller.handlePaginationNext w).state.currentPage = w.state.currentPage)) ∧
      (Controller.totalsGrow 1 es = true → w.state.currentPage ≤ w.state.totalPages) := by
  obtain ⟨w, hrun, _, h1, h2⟩ :=
    Controller.run_pages es (bootstrap sv d) 1 (Controller.wired_bootstrap sv d hd)
      (by simp [bootstrap, State.subscribe, State.constructor])
  have hprev : (handlePaginationPrev w).state.currentPage
      = if 1 < w.state.currentPage then w.state.currentPage - 1 else w.state.currentPage := by
    unfold handlePaginationPrev
    split
    · exact (Controller.turnPage_pages _ _).1
    · rfl
  have hnext : (handlePaginationNext w).state.currentPage
      = if w.state.currentPage < w.state.totalPages then w.state.currentPage + 1
        else w.state.currentPage := by
    unfold handlePaginationNext
    split
    · exact (Controller.turnPage_pages _ _).1
    · rfl
  refine ⟨w, hrun, ?_, ?_, ?_, ?_⟩
  · rw [hprev]
    simp only [View.renderPagination, decide_eq_true_eq]
    constructor
    · intro h; simp [h]
    · intro h; split at h <;> omega
  · rw [hnext]
    simp only [View.renderPagination, decide_eq_true_eq]
    intro h; simp [h]
  · intro hle
    rw [hnext]
    simp only [View.renderPagination, decide_eq_true_eq]
    constructor
    · intro h; simp [h]
    · intro h; split at h <;> omega
  · intro hg
    exact h2 hg (by simp [bootstrap, State.subscribe, State.constructor])
      (by simp [bootstrap, State.subscribe, State.constructor])

/-- Three items in all, then a click on next: on page 2 of 2 the next button is
disabled exactly when a click on it changes nothing. -/
theorem pagination_buttons_witness :
    View.emptyPage.inventoryList = [] ∧
    ∃ w, Controller.run (Controller.bootstrap Server.empty View.emptyPage)
        [Event.inventoryReply ⟨[Sample.apple], 3⟩, Event.clickNext] = some w ∧
      ((View.renderPagination w.state.currentPage w.state.totalPages
          View.emptyPage).nextDisabled = true
        ↔ (Controller.handlePaginationNext w).state.currentPage = w.state.currentPage) := by
  obtain ⟨w, hrun, _, _, h3, h4⟩ := pagination_buttons Server.empty View.emptyPage
    View.emptyPage rfl [Event.inventoryReply ⟨[Sample.apple], 3⟩, Event.clickNext]
  exact ⟨rfl, w, hrun, h3 (h4 (by decide))⟩

/-! ## Well-formedness of the cart -/

end Shop
